import Mathlib

set_option maxRecDepth 8000

/-!
Verification of the Command Installation Orchestrator
(npm-package/command_installer_refactored.py).

The target directory is modelled as an association list from command name to
the content of `<name>.md`; the persisted manifest file as a three-way value
(absent / exists-but-invalid-JSON / parsed data); backups as a list of
directory snapshots.  `time.time()` is supplied as an explicit `now : Nat`
argument.  File permissions (`set_file_permissions`) have no observable
effect on this state and are not modelled.
-/

namespace CommandInstall

/-- Target directory: association list mapping a command name to the content
of the file `targetDir/<name>.md`. -/
abbrev FS := List (String × String)

/-- Look up the content of `targetDir/<name>.md` (first matching entry). -/
def fsLookup : FS → String → Option String
  | [], _ => none
  | (n, c) :: rest, name => if n = name then some c else fsLookup rest name

/-- Write (create or replace) the file `targetDir/<name>.md`. -/
def fsWrite : FS → String → String → FS
  | [], name, content => [(name, content)]
  | (n, c) :: rest, name, content =>
      if n = name then (n, content) :: rest else (n, c) :: fsWrite rest name content

/-- Delete the file `targetDir/<name>.md` if present. -/
def fsRemove : FS → String → FS
  | [], _ => []
  | (n, c) :: rest, name =>
      if n = name then fsRemove rest name else (n, c) :: fsRemove rest name

/-- Parsed shape of `installed_commands.json`
(`ManifestManager.create_manifest` / `update_manifest_remove`). -/
structure ManifestData where
  installed_commands : List String
  installation_timestamp : Nat
  installation_source : String
  command_type : String
  installer_version : String
  last_updated : Option Nat := none
deriving DecidableEq

/-- The persisted manifest file: missing, present but invalid JSON, or valid. -/
inductive ManifestFile
  | absent
  | corrupt (raw : String)
  | valid (data : ManifestData)
deriving DecidableEq

/-- The mutable state an Install/Uninstall call touches: the target
directory, the manifest file, and the set of backup snapshots created in
temporary directories (`tempfile.mkdtemp`). -/
structure InstallState where
  dir : FS
  manifest : ManifestFile
  backups : List FS
deriving DecidableEq

/-- `InstallationOptions` dataclass (all fields default `False`). -/
structure InstallationOptions where
  overwrite : Bool := false
  dry_run : Bool := false
  ignore_missing : Bool := false
  create_backup : Bool := false
  rollback_on_failure : Bool := false
deriving DecidableEq

/-- ASCII uppercase of a character (the effect of Python `str.upper()` on
the ASCII command names used here). -/
def upperChar (c : Char) : Char :=
  if 'a' ≤ c ∧ c ≤ 'z' then Char.ofNat (c.toNat - 32) else c

/-- ASCII uppercase of a string: models `command.upper()`. -/
def upperString (s : String) : String := ⟨s.data.map upperChar⟩

/-- The mock command content written by `FileOperations.copy_command_file`. -/
def mock_content (command command_type : String) : String :=
  "---\ndescription: \"" ++ command ++ " command implementation\"\ntags: [\""
    ++ command_type ++ "\", \"automation\"]\n---\n\n# " ++ upperString command
    ++ "\n\n## Description\nThis is the " ++ command
    ++ " command for Claude Code.\n\n## Usage\n/" ++ command
    ++ " [options]\n\n## Implementation\nCommand implementation goes here.\n"

/-- `FileOperations.copy_command_file`: fails for the sentinel name
`problematic_command`, otherwise writes the mock content and succeeds.
Returns the updated directory and the success flag. -/
def copy_command_file (dir : FS) (command command_type : String) : FS × Bool :=
  if command = "problematic_command" then (dir, false)
  else (fsWrite dir command (mock_content command command_type), true)

/-- `FileOperations.remove_command_file`: unlinks `<command>.md` if it
exists; returns `true` iff a file was removed. -/
def remove_command_file (dir : FS) (command : String) : FS × Bool :=
  match fsLookup dir command with
  | some _ => (fsRemove dir command, true)
  | none => (dir, false)

/-- `ManifestManager.create_manifest`: builds a fresh manifest from the
installed commands; if the manifest file exists and parses, the new name
list is `list(set(existing + installed))` (modelled as `dedup` of the
concatenation — set semantics); a corrupt file raises inside the `try` and
is ignored (`except: pass`), so the fresh manifest is written as-is. -/
def create_manifest (mf : ManifestFile) (installed : List String)
    (command_type : String) (now : Nat) : ManifestFile :=
  let base : ManifestData :=
    { installed_commands := installed
      installation_timestamp := now
      installation_source := "claude-dev-toolkit"
      command_type := command_type
      installer_version := "1.0.0" }
  match mf with
  | .valid d => .valid { base with installed_commands := (d.installed_commands ++ installed).dedup }
  | _ => .valid base

/-- `ManifestManager.update_manifest_remove`: if the manifest file exists
and parses, filter out the removed names and set `last_updated`; a missing
file is a no-op and a corrupt file raises and is ignored (`except: pass`). -/
def update_manifest_remove (mf : ManifestFile) (removed : List String)
    (now : Nat) : ManifestFile :=
  match mf with
  | .valid d => .valid { d with
      installed_commands := d.installed_commands.filter (fun c => !removed.contains c)
      last_updated := some now }
  | other => other

/-- Outcome of one iteration of the per-command loop in
`ActiveCommandStrategy._install_commands`: either continue with updated
accumulators/directory, or the early rollback return. -/
inductive StepResult
  | next (installed failed overwritten : List String) (dir : FS)
  | rolledBack (failed : List String) (err : String) (dir : FS)
deriving DecidableEq

/-- Rollback helper: `remove_command_file` for every name installed so far
in this call (the loop body's rollback branch). -/
def removeAll (dir : FS) (installed : List String) : FS :=
  installed.foldl (fun d c => (remove_command_file d c).1) dir

/-- The copy / failure-handling part of the loop body
(`_install_commands`, the `success = self.file_ops.copy_command_file(...)`
block): on success record under `installed` (permission setting has no
modelled effect); on failure record under `failed` and, when
`rollback_on_failure`, remove everything installed so far and return the
rollback result. -/
def install_step (opts : InstallationOptions) (command_type command : String)
    (installed failed overwritten : List String) (dir : FS) : StepResult :=
  match copy_command_file dir command command_type with
  | (dir', true) => .next (installed ++ [command]) failed overwritten dir'
  | (dir', false) =>
      if opts.rollback_on_failure then
        .rolledBack (failed ++ [command]) ("Failed to copy " ++ command)
          (removeAll dir' installed)
      else
        .next installed (failed ++ [command]) overwritten dir'

/-- One iteration of the loop body of `_install_commands`: the conflict
check (file already exists) followed by the copy.  Note the fall-through:
when the file exists, `overwrite` is false and `ignore_missing` is true,
neither conflict branch fires and the copy proceeds anyway. -/
def process_command (opts : InstallationOptions) (command_type command : String)
    (installed failed overwritten : List String) (dir : FS) : StepResult :=
  if (fsLookup dir command).isSome then
    if opts.overwrite then
      install_step opts command_type command installed failed (overwritten ++ [command]) dir
    else if !opts.ignore_missing then
      .next installed (failed ++ [command]) overwritten dir
    else
      install_step opts command_type command installed failed overwritten dir
  else
    install_step opts command_type command installed failed overwritten dir

/-- Outcome of the whole per-command loop. -/
inductive LoopResult
  | completed (installed failed overwritten : List String) (dir : FS)
  | rolledBack (failed : List String) (err : String) (dir : FS)
deriving DecidableEq

/-- The per-command loop of `_install_commands`, with the three accumulator
lists and the evolving target directory. -/
def install_loop (opts : InstallationOptions) (command_type : String) :
    List String → List String → List String → List String → FS → LoopResult
  | [], installed, failed, overwritten, dir => .completed installed failed overwritten dir
  | command :: rest, installed, failed, overwritten, dir =>
      match process_command opts command_type command installed failed overwritten dir with
      | .next i f o d => install_loop opts command_type rest i f o d
      | .rolledBack f e d => .rolledBack f e d

/-- The result dictionary of an install call.  A key absent from the Python
dict is modelled by the field's default value (`none` / `false` / `0`).
`part_success` models the key named `partial_success` in the source. -/
structure InstallResult where
  installed_commands : List String := []
  failed_commands : List String := []
  installation_success : Bool := false
  installed_count : Nat := 0
  rollback_performed : Bool := false
  rollback_success : Bool := false
  error : Option String := none
  conflicts_handled : Bool := false
  overwritten_commands : Option (List String) := none
  part_success : Bool := false
  successful_commands : Option (List String) := none
  dry_run : Bool := false
  would_install : Option (List String) := none
  installation_location : Option String := none
  backup_created : Bool := false
  backup_location : Option String := none
deriving DecidableEq

/-- `ActiveCommandStrategy._install_commands` (also used by the
experimental strategy with a different `command_type`): run the loop, then
on the non-rollback path create the manifest when something was installed
and assemble the result dict with its conditional keys. -/
def install_commands_core (opts : InstallationOptions) (commands : List String)
    (command_type : String) (dir : FS) (mf : ManifestFile) (now : Nat) :
    InstallResult × FS × ManifestFile :=
  match install_loop opts command_type commands [] [] [] dir with
  | .rolledBack failed err dir' =>
      ({ installed_commands := []
         failed_commands := failed
         installation_success := false
         installed_count := 0
         rollback_performed := true
         rollback_success := true
         error := some err }, dir', mf)
  | .completed installed failed overwritten dir' =>
      let mf' := if installed.isEmpty then mf else create_manifest mf installed command_type now
      let r0 : InstallResult :=
        { installed_commands := installed
          failed_commands := failed
          installation_success := decide (0 < installed.length)
          installed_count := installed.length }
      let r1 := if overwritten.isEmpty then r0
        else { r0 with conflicts_handled := true, overwritten_commands := some overwritten }
      let r2 := if failed.isEmpty then r1
        else { r1 with part_success := true, successful_commands := some installed }
      (r2, dir', mf')

/-- The string reported as `installation_location` (the target directory). -/
def claude_commands_dir_str : String := ".claude/commands"

/-- Path returned by `BackupManager.create_backup` (`tempfile.mkdtemp`
gives a fresh directory; modelled by indexing with the snapshot count). -/
def backup_path (n : Nat) : String := "claude_commands_backup_" ++ toString n

/-- `InstallationOrchestrator.install_commands` composed with
`InstallCommandsCommand.execute`, modelled for `command_type` `active` or
`experimental` (the only strategies whose `install` delegates to
`_install_commands`).  The backup, when requested, is created *before* the
dry-run check in `execute`; the backup keys are added to the result only
when not a dry run. -/
def orchestrator_install (commands : List String) (command_type : String)
    (opts : InstallationOptions) (st : InstallState) (now : Nat) :
    InstallResult × InstallState :=
  let backupLoc : Option String :=
    if opts.create_backup then some (backup_path st.backups.length) else none
  let st1 : InstallState :=
    if opts.create_backup then { st with backups := st.backups ++ [st.dir] } else st
  let rs : InstallResult × InstallState :=
    if opts.dry_run then
      ({ dry_run := true
         would_install := some commands
         installation_location := some claude_commands_dir_str }, st1)
    else
      let (r, dir', mf') := install_commands_core opts commands command_type st1.dir st1.manifest now
      (r, { st1 with dir := dir', manifest := mf' })
  match backupLoc with
  | some loc =>
      if !opts.dry_run then
        ({ rs.1 with backup_created := true, backup_location := some loc }, rs.2)
      else rs
  | none => rs

/-- Result of `UninstallCommandsCommand.execute`. -/
structure UninstallResult where
  uninstalled_commands : List String
  uninstall_success : Bool
deriving DecidableEq

/-- The per-command loop of `UninstallCommandsCommand.execute`: remove each
file, accumulating the names actually removed. -/
def uninstall_loop : List String → List String → FS → List String × FS
  | [], acc, dir => (acc, dir)
  | c :: rest, acc, dir =>
      match remove_command_file dir c with
      | (dir', true) => uninstall_loop rest (acc ++ [c]) dir'
      | (dir', false) => uninstall_loop rest acc dir'

/-- `UninstallCommandsCommand.execute` (via
`InstallationOrchestrator.uninstall_commands`): remove each named file,
then update the manifest with the subset actually removed (only when that
subset is non-empty). -/
def uninstall_commands (commands : List String) (st : InstallState) (now : Nat) :
    UninstallResult × InstallState :=
  let (uninstalled, dir') := uninstall_loop commands [] st.dir
  let mf' := if uninstalled.isEmpty then st.manifest
    else update_manifest_remove st.manifest uninstalled now
  ({ uninstalled_commands := uninstalled
     uninstall_success := decide (0 < uninstalled.length) },
   { st with dir := dir', manifest := mf' })

/-- `InstallationOrchestrator.available_commands` – the `active` list. -/
def available_active : List String :=
  ["xgit", "xtest", "xquality", "xdocs", "xsecurity", "xrefactor", "xtdd",
   "xplanning", "xspec", "xarchitecture", "xrelease", "xpipeline", "xinfra",
   "problematic_command"]

/-- `InstallationOrchestrator.available_commands` – the `experimental` list. -/
def available_experimental : List String :=
  ["xanalytics", "xapi", "xaws", "xcicd", "xcompliance", "xpolicy"]

/-- The full catalog as flattened by `CommandValidator.validate_selection`
(dict values in insertion order: active then experimental). -/
def all_available : List String := available_active ++ available_experimental

/-- Result of `CommandValidator.validate_selection`. -/
structure SelectionValidation where
  valid : Bool
  invalid_commands : List String
  valid_commands : List String
deriving DecidableEq

/-- `CommandValidator.validate_selection`: partition the requested names
against the full catalog. -/
def validate_selection (selected : List String) : SelectionValidation :=
  let invalid := selected.filter (fun c => !all_available.contains c)
  { valid := decide (invalid.length = 0)
    invalid_commands := invalid
    valid_commands := selected.filter (fun c => all_available.contains c) }

/-- The name list recorded in the manifest file (empty when the file is
absent or corrupt). -/
def manifest_set (mf : ManifestFile) : List String :=
  match mf with
  | .valid d => d.installed_commands
  | _ => []

/-! ### Basic lemmas about the file-system model -/

theorem fsLookup_fsWrite (d : FS) (n c m : String) :
    fsLookup (fsWrite d n c) m = if n = m then some c else fsLookup d m := by
  induction d with
  | nil => by_cases h : n = m <;> simp [fsWrite, fsLookup, h]
  | cons hd tl ih =>
      obtain ⟨k, v⟩ := hd
      by_cases hk : k = n
      · subst hk
        by_cases hm : k = m <;> simp [fsWrite, fsLookup, hm]
      · by_cases hm : k = m
        · subst hm
          have hnm : ¬ n = k := fun h => hk h.symm
          simp [fsWrite, fsLookup, hk, hnm]
        · simp [fsWrite, fsLookup, hk, hm, ih]

theorem fsLookup_fsRemove (d : FS) (n m : String) :
    fsLookup (fsRemove d n) m = if n = m then none else fsLookup d m := by
  induction d with
  | nil => by_cases h : n = m <;> simp [fsRemove, fsLookup, h]
  | cons hd tl ih =>
      obtain ⟨k, v⟩ := hd
      by_cases hk : k = n
      · subst hk
        by_cases hm : k = m
        · subst hm
          simp [fsRemove, fsLookup, ih]
        · simp [fsRemove, fsLookup, hm, ih]
      · by_cases hm : k = m
        · subst hm
          have hnm : ¬ n = k := fun h => hk h.symm
          simp [fsRemove, fsLookup, hk, hnm]
        · simp [fsRemove, fsLookup, hk, hm, ih]

theorem fsLookup_remove_command_file (d : FS) (n m : String) :
    fsLookup (remove_command_file d n).1 m = if n = m then none else fsLookup d m := by
  unfold remove_command_file
  by_cases h : n = m
  · subst h
    cases hl : fsLookup d n with
    | some v => simp [fsLookup_fsRemove]
    | none => simp [hl]
  · cases hl : fsLookup d n with
    | some v => simp [fsLookup_fsRemove, h]
    | none => simp [h]

theorem fsLookup_removeAll (l : List String) (d : FS) (m : String) :
    fsLookup (removeAll d l) m = if m ∈ l then none else fsLookup d m := by
  induction l generalizing d with
  | nil => simp [removeAll]
  | cons c rest ih =>
      have hstep : removeAll d (c :: rest) = removeAll (remove_command_file d c).1 rest := by
        simp [removeAll, List.foldl_cons]
      rw [hstep, ih]
      by_cases hm : m ∈ rest
      · simp [hm]
      · by_cases hc : c = m
        · subst hc
          simp [hm, fsLookup_remove_command_file]
        · have hnotin : ¬ m ∈ c :: rest := by
            intro h
            rcases List.mem_cons.mp h with h1 | h2
            · exact hc h1.symm
            · exact hm h2
          simp [hm, hnotin, fsLookup_remove_command_file, hc]

/-! ### Lemmas about the orchestrator and the install loop -/

/-- On a non-dry-run call the orchestrator's result is the core result,
plus the backup keys when a backup was requested. -/
theorem orchestrator_install_not_dry (cmds : List String) (ct : String)
    (opts : InstallationOptions) (st : InstallState) (now : Nat)
    (h : opts.dry_run = false) :
    orchestrator_install cmds ct opts st now =
      ((if opts.create_backup then
          { (install_commands_core opts cmds ct st.dir st.manifest now).1 with
              backup_created := true
              backup_location := some (backup_path st.backups.length) }
        else (install_commands_core opts cmds ct st.dir st.manifest now).1),
       { dir := (install_commands_core opts cmds ct st.dir st.manifest now).2.1
         manifest := (install_commands_core opts cmds ct st.dir st.manifest now).2.2
         backups := if opts.create_backup then st.backups ++ [st.dir] else st.backups }) := by
  cases hcb : opts.create_backup <;> simp [orchestrator_install, h, hcb]

/-- On a dry-run call the orchestrator reports immediately, but the backup
(when requested) has already been created. -/
theorem orchestrator_install_dry (cmds : List String) (ct : String)
    (opts : InstallationOptions) (st : InstallState) (now : Nat)
    (h : opts.dry_run = true) :
    orchestrator_install cmds ct opts st now =
      ({ dry_run := true
         would_install := some cmds
         installation_location := some claude_commands_dir_str },
       if opts.create_backup then { st with backups := st.backups ++ [st.dir] } else st) := by
  cases hcb : opts.create_backup <;> simp [orchestrator_install, h, hcb]

/-- Case analysis of one loop iteration that continues: either the conflict
skip (name recorded under failed, directory untouched), a successful copy
(name recorded under installed, file written, possibly also recorded under
overwritten), or a failed copy without rollback (name recorded under
failed, directory untouched). -/
theorem process_command_next_cases (opts : InstallationOptions) (ct c : String)
    (i f o : List String) (d : FS) (i' f' o' : List String) (d' : FS)
    (h : process_command opts ct c i f o d = .next i' f' o' d') :
    (i' = i ∧ f' = f ++ [c] ∧ o' = o ∧ d' = d) ∨
    (i' = i ++ [c] ∧ f' = f ∧ (o' = o ∨ o' = o ++ [c]) ∧
      d' = fsWrite d c (mock_content c ct)) ∨
    (i' = i ∧ f' = f ++ [c] ∧ (o' = o ∨ o' = o ++ [c]) ∧ d' = d) := by
  by_cases hp : c = "problematic_command"
  · subst hp
    simp only [process_command, install_step, copy_command_file, if_pos rfl] at h
    repeat' split at h
    all_goals simp_all
  · simp only [process_command, install_step, copy_command_file, if_neg hp] at h
    repeat' split at h
    all_goals simp_all

/-- When an iteration triggers rollback, the resulting directory is the
current one with every name installed so far in this call removed. -/
theorem process_command_rolledBack (opts : InstallationOptions) (ct c : String)
    (i f o : List String) (d : FS) (F : List String) (E : String) (D : FS)
    (h : process_command opts ct c i f o d = .rolledBack F E D) :
    D = removeAll d i := by
  by_cases hp : c = "problematic_command"
  · subst hp
    simp only [process_command, install_step, copy_command_file, if_pos rfl] at h
    repeat' split at h
    all_goals simp_all
  · simp only [process_command, install_step, copy_command_file, if_neg hp] at h
    repeat' split at h
    all_goals simp_all

theorem install_loop_nil (opts : InstallationOptions) (ct : String)
    (i f o : List String) (d : FS) :
    install_loop opts ct [] i f o d = .completed i f o d := rfl

theorem install_loop_cons (opts : InstallationOptions) (ct c : String)
    (rest : List String) (i f o : List String) (d : FS) :
    install_loop opts ct (c :: rest) i f o d =
      match process_command opts ct c i f o d with
      | .next i' f' o' d' => install_loop opts ct rest i' f' o' d'
      | .rolledBack f' e' d' => .rolledBack f' e' d' := rfl

/-- Once a prefix of the requested list triggers rollback, any further
requested commands are irrelevant: the loop returns the same rollback
outcome. -/
theorem install_loop_append_rolledBack (opts : InstallationOptions) (ct c : String)
    (post : List String) :
    ∀ (pre : List String) (i f o : List String) (d : FS) (F : List String) (E : String) (D : FS),
      install_loop opts ct (pre ++ [c]) i f o d = .rolledBack F E D →
      install_loop opts ct (pre ++ c :: post) i f o d = .rolledBack F E D := by
  intro pre
  induction pre with
  | nil =>
      intro i f o d F E D h
      simp only [List.nil_append] at *
      rw [install_loop_cons] at h ⊢
      cases hp : process_command opts ct c i f o d with
      | next i' f' o' d' =>
          rw [hp] at h
          exact absurd h (by simp [install_loop_nil])
      | rolledBack f' e' d' =>
          rw [hp] at h
          exact h
  | cons p pre ih =>
      intro i f o d F E D h
      simp only [List.cons_append] at *
      rw [install_loop_cons] at h ⊢
      cases hp : process_command opts ct p i f o d with
      | next i' f' o' d' =>
          rw [hp] at h
          exact ih i' f' o' d' F E D h
      | rolledBack f' e' d' =>
          rw [hp] at h
          exact h

/-- If the loop ends in rollback then the final directory is the initial
one with some set of written names removed: every name in that set is
absent afterwards, and every other name's file is exactly as before the
call. -/
theorem install_loop_rolledBack_dir (opts : InstallationOptions) (ct : String) (dir0 : FS) :
    ∀ (cmds i f o : List String) (d : FS) (F : List String) (E : String) (D : FS),
      (∀ n, n ∉ i → fsLookup d n = fsLookup dir0 n) →
      install_loop opts ct cmds i f o d = .rolledBack F E D →
      ∃ w : List String, (∀ n, n ∈ w → fsLookup D n = none) ∧
        (∀ n, n ∉ w → fsLookup D n = fsLookup dir0 n) := by
  intro cmds
  induction cmds with
  | nil =>
      intro i f o d F E D _ h
      rw [install_loop_nil] at h
      exact absurd h (by simp)
  | cons c rest ih =>
      intro i f o d F E D hinv h
      rw [install_loop_cons] at h
      cases hp : process_command opts ct c i f o d with
      | next i' f' o' d' =>
          rw [hp] at h
          refine ih i' f' o' d' F E D ?_ h
          intro n hn
          rcases process_command_next_cases opts ct c i f o d i' f' o' d' hp with
            ⟨hi, _, _, hd⟩ | ⟨hi, _, _, hd⟩ | ⟨hi, _, _, hd⟩
          · rw [hd]; exact hinv n (hi ▸ hn)
          · rw [hd, fsLookup_fsWrite]
            have hnc : ¬ c = n := by
              intro hcn
              exact hn (hi ▸ (List.mem_append.mpr (Or.inr (by simp [hcn]))))
            rw [if_neg hnc]
            exact hinv n (fun hni => hn (hi ▸ List.mem_append.mpr (Or.inl hni)))
          · rw [hd]; exact hinv n (hi ▸ hn)
      | rolledBack f' e' d' =>
          rw [hp] at h
          have h' : LoopResult.rolledBack f' e' d' = LoopResult.rolledBack F E D := h
          cases h'
          have hD := process_command_rolledBack opts ct c i f o d _ _ _ hp
          refine ⟨i, ?_, ?_⟩
          · intro n hn
            rw [hD, fsLookup_removeAll, if_pos hn]
          · intro n hn
            rw [hD, fsLookup_removeAll, if_neg hn]
            exact hinv n hn

/-- Every name already recorded in the installed accumulator when the loop
(from any intermediate state) ends in rollback is absent from the returned
directory: the rollback branch removes the whole accumulator.  Because the
loop is tail-recursive, the run from the state right after a file is
written is a run whose accumulator contains that name and whose outcome is
the call's outcome, so this covers every file written during a call. -/
theorem install_loop_rolledBack_installed_absent (opts : InstallationOptions) (ct : String) :
    ∀ (cmds i f o : List String) (d : FS) (F : List String) (E : String) (D : FS),
      install_loop opts ct cmds i f o d = .rolledBack F E D →
      ∀ n ∈ i, fsLookup D n = none := by
  intro cmds
  induction cmds with
  | nil =>
      intro i f o d F E D h
      rw [install_loop_nil] at h
      exact absurd h (by simp)
  | cons c rest ih =>
      intro i f o d F E D h n hn
      rw [install_loop_cons] at h
      cases hp : process_command opts ct c i f o d with
      | next i' f' o' d' =>
          rw [hp] at h
          refine ih i' f' o' d' F E D h n ?_
          rcases process_command_next_cases opts ct c i f o d i' f' o' d' hp with
            ⟨hi, _, _, _⟩ | ⟨hi, _, _, _⟩ | ⟨hi, _, _, _⟩
          · rw [hi]; exact hn
          · rw [hi]; exact List.mem_append.mpr (Or.inl hn)
          · rw [hi]; exact hn
      | rolledBack f' e' d' =>
          rw [hp] at h
          have h' : LoopResult.rolledBack f' e' d' = LoopResult.rolledBack F E D := h
          cases h'
          have hD := process_command_rolledBack opts ct c i f o d _ _ _ hp
          rw [hD, fsLookup_removeAll, if_pos hn]

/-- The result assembled by `_install_commands` on the rollback path. -/
theorem core_rolledBack (opts : InstallationOptions) (cmds : List String)
    (ct : String) (d : FS) (mf : ManifestFile) (now : Nat)
    (F : List String) (E : String) (D : FS)
    (hL : install_loop opts ct cmds [] [] [] d = .rolledBack F E D) :
    install_commands_core opts cmds ct d mf now =
      ({ installed_commands := []
         failed_commands := F
         installation_success := false
         installed_count := 0
         rollback_performed := true
         rollback_success := true
         error := some E }, D, mf) := by
  simp [install_commands_core, hL]

/-- `rollback_performed` is reported only when the loop actually ended in
rollback. -/
theorem core_rollback_performed (opts : InstallationOptions) (cmds : List String)
    (ct : String) (d : FS) (mf : ManifestFile) (now : Nat)
    (h : (install_commands_core opts cmds ct d mf now).1.rollback_performed = true) :
    ∃ F E D, install_loop opts ct cmds [] [] [] d = .rolledBack F E D := by
  cases hL : install_loop opts ct cmds [] [] [] d with
  | completed I F O D =>
      exfalso
      simp only [install_commands_core, hL] at h
      split at h <;> split at h <;> simp_all
  | rolledBack F E D => exact ⟨F, E, D, rfl⟩

/-- A command whose file does not yet exist and which is not the failure
sentinel: the iteration writes the file and records the name under
installed only. -/
theorem process_fresh (opts : InstallationOptions) (ct c : String)
    (i f o : List String) (d : FS)
    (hc : c ≠ "problematic_command") (h0 : fsLookup d c = none) :
    process_command opts ct c i f o d =
      .next (i ++ [c]) f o (fsWrite d c (mock_content c ct)) := by
  simp [process_command, h0, install_step, copy_command_file, hc]

/-- With `overwrite=true`, a non-sentinel command is always written and
recorded under installed; it is additionally recorded under overwritten
exactly when its file already existed. -/
theorem process_overwrite (opts : InstallationOptions) (ct c : String)
    (i f o : List String) (d : FS)
    (hc : c ≠ "problematic_command") (how : opts.overwrite = true) :
    process_command opts ct c i f o d =
      .next (i ++ [c]) f (if (fsLookup d c).isSome then o ++ [c] else o)
        (fsWrite d c (mock_content c ct)) := by
  by_cases h : (fsLookup d c).isSome <;>
    simp [process_command, h, how, install_step, copy_command_file, hc]

/-- Processing the failure sentinel without rollback: the name is recorded
under failed, the directory is untouched, and the iteration continues. -/
theorem process_sentinel_no_rollback (opts : InstallationOptions) (ct : String)
    (i f o : List String) (d : FS)
    (hrb : opts.rollback_on_failure = false) :
    ∃ o', (o' = o ∨ o' = o ++ ["problematic_command"]) ∧
      process_command opts ct "problematic_command" i f o d =
        .next i (f ++ ["problematic_command"]) o' d := by
  by_cases h1 : (fsLookup d "problematic_command").isSome
  · by_cases h2 : opts.overwrite
    · refine ⟨o ++ ["problematic_command"], Or.inr rfl, ?_⟩
      simp [process_command, install_step, copy_command_file, h1, h2, hrb]
    · by_cases h3 : opts.ignore_missing
      · refine ⟨o, Or.inl rfl, ?_⟩
        simp [process_command, install_step, copy_command_file, h1, h2, h3, hrb]
      · refine ⟨o, Or.inl rfl, ?_⟩
        simp [process_command, h1, h2, h3]
  · refine ⟨o, Or.inl rfl, ?_⟩
    simp [process_command, install_step, copy_command_file, h1, hrb]

/-- Membership in the manifest after a merge: the union of the previous
set and the newly installed names. -/
theorem create_manifest_mem (mf : ManifestFile) (ins : List String)
    (ct : String) (now : Nat) (x : String) :
    x ∈ manifest_set (create_manifest mf ins ct now) ↔
      x ∈ manifest_set mf ∨ x ∈ ins := by
  cases mf <;> simp [create_manifest, manifest_set, List.mem_dedup, List.mem_append]

/-- A merge always leaves a valid (parseable) manifest file behind. -/
theorem create_manifest_valid (mf : ManifestFile) (ins : List String)
    (ct : String) (now : Nat) :
    ∃ dta, create_manifest mf ins ct now = .valid dta := by
  cases mf <;> exact ⟨_, rfl⟩

/-- Accumulator invariants for the loop on duplicate-free input: installed
and failed stay disjoint, and every overwritten name is recorded under
installed or failed as well. -/
theorem install_loop_completed_disjoint (opts : InstallationOptions) (ct : String) :
    ∀ (cmds i f o : List String) (d : FS) (I F O : List String) (D : FS),
      cmds.Nodup → (∀ c ∈ cmds, c ∉ i ∧ c ∉ f) →
      (∀ c, ¬(c ∈ i ∧ c ∈ f)) → (∀ c ∈ o, c ∈ i ∨ c ∈ f) →
      install_loop opts ct cmds i f o d = .completed I F O D →
      (∀ c, ¬(c ∈ I ∧ c ∈ F)) ∧ (∀ c ∈ O, c ∈ I ∨ c ∈ F) := by
  intro cmds
  induction cmds with
  | nil =>
      intro i f o d I F O D _ _ hdisj hover h
      rw [install_loop_nil] at h
      have h' : LoopResult.completed i f o d = LoopResult.completed I F O D := h
      cases h'
      exact ⟨hdisj, hover⟩
  | cons c rest ih =>
      intro i f o d I F O D hnd hfresh hdisj hover h
      rw [install_loop_cons] at h
      cases hp : process_command opts ct c i f o d with
      | next i' f' o' d' =>
          rw [hp] at h
          have hcfresh := hfresh c (List.mem_cons_self c rest)
          have hcrest : c ∉ rest := (List.nodup_cons.mp hnd).1
          have hndrest : rest.Nodup := (List.nodup_cons.mp hnd).2
          rcases process_command_next_cases opts ct c i f o d i' f' o' d' hp with
            ⟨hi, hf, ho, _⟩ | ⟨hi, hf, ho, _⟩ | ⟨hi, hf, ho, _⟩
          · -- conflict skip: c joins failed
            refine ih i' f' o' d' I F O D hndrest ?_ ?_ ?_ h
            · intro x hx
              have hxf := hfresh x (List.mem_cons_of_mem c hx)
              have hxc : x ≠ c := fun he => hcrest (he ▸ hx)
              constructor
              · rw [hi]; exact hxf.1
              · rw [hf]; simp [hxf.2, hxc]
            · intro x hx
              rw [hi] at hx
              rw [hf] at hx
              rcases hx with ⟨hxi, hxf⟩
              rcases List.mem_append.mp hxf with hxf | hxf
              · exact hdisj x ⟨hxi, hxf⟩
              · simp at hxf
                exact hcfresh.1 (hxf ▸ hxi)
            · intro x hx
              rw [ho] at hx
              rw [hi, hf]
              rcases hover x hx with hxi | hxf
              · exact Or.inl hxi
              · exact Or.inr (List.mem_append.mpr (Or.inl hxf))
          · -- successful copy: c joins installed (and possibly overwritten)
            refine ih i' f' o' d' I F O D hndrest ?_ ?_ ?_ h
            · intro x hx
              have hxf := hfresh x (List.mem_cons_of_mem c hx)
              have hxc : x ≠ c := fun he => hcrest (he ▸ hx)
              constructor
              · rw [hi]; simp [hxf.1, hxc]
              · rw [hf]; exact hxf.2
            · intro x hx
              rw [hi] at hx
              rw [hf] at hx
              rcases hx with ⟨hxi, hxf⟩
              rcases List.mem_append.mp hxi with hxi | hxi
              · exact hdisj x ⟨hxi, hxf⟩
              · simp at hxi
                exact hcfresh.2 (hxi ▸ hxf)
            · intro x hx
              rw [hi]
              rcases ho with ho | ho
              · rw [ho] at hx
                rcases hover x hx with hxi | hxf
                · exact Or.inl (List.mem_append.mpr (Or.inl hxi))
                · exact Or.inr (hf ▸ hxf)
              · rw [ho] at hx
                rcases List.mem_append.mp hx with hx | hx
                · rcases hover x hx with hxi | hxf
                  · exact Or.inl (List.mem_append.mpr (Or.inl hxi))
                  · exact Or.inr (hf ▸ hxf)
                · simp at hx
                  exact Or.inl (List.mem_append.mpr (Or.inr (by simp [hx])))
          · -- failed copy without rollback: c joins failed
            refine ih i' f' o' d' I F O D hndrest ?_ ?_ ?_ h
            · intro x hx
              have hxf := hfresh x (List.mem_cons_of_mem c hx)
              have hxc : x ≠ c := fun he => hcrest (he ▸ hx)
              constructor
              · rw [hi]; exact hxf.1
              · rw [hf]; simp [hxf.2, hxc]
            · intro x hx
              rw [hi] at hx
              rw [hf] at hx
              rcases hx with ⟨hxi, hxf⟩
              rcases List.mem_append.mp hxf with hxf | hxf
              · exact hdisj x ⟨hxi, hxf⟩
              · simp at hxf
                exact hcfresh.1 (hxf ▸ hxi)
            · intro x hx
              rw [hi, hf]
              rcases ho with ho | ho
              · rw [ho] at hx
                rcases hover x hx with hxi | hxf
                · exact Or.inl hxi
                · exact Or.inr (List.mem_append.mpr (Or.inl hxf))
              · rw [ho] at hx
                rcases List.mem_append.mp hx with hx | hx
                · rcases hover x hx with hxi | hxf
                  · exact Or.inl hxi
                  · exact Or.inr (List.mem_append.mpr (Or.inl hxf))
                · simp at hx
                  exact Or.inr (List.mem_append.mpr (Or.inr (by simp [hx])))
      | rolledBack f' e' d' =>
          rw [hp] at h
          exact absurd h (by simp)

/-! ### Claim theorems -/

/-- C2 counterexample: an Install call with `dry_run=true` and
`create_backup=true` does create a backup snapshot (the backups list grows
from `[]` to `[[]]`), contradicting the claim that no backup directory is
created on a dry run. -/
theorem dry_run_backup_counterexample :
    (orchestrator_install ["xgit"] "active" { dry_run := true, create_backup := true }
        ⟨[], ManifestFile.absent, []⟩ 0).1.dry_run = true ∧
    (orchestrator_install ["xgit"] "active" { dry_run := true, create_backup := true }
        ⟨[], ManifestFile.absent, []⟩ 0).2.backups = [[]] := by decide

/-- C2 (amended): a dry-run Install returns `dry_run=true` and
`would_install` equal to the requested list, leaves the target directory
and the manifest unchanged, and reports no backup keys; but when
`create_backup=true` a backup snapshot is still created (the backup runs
before the dry-run check). -/
theorem dry_run_reports_only (cmds : List String) (ct : String)
    (opts : InstallationOptions) (st : InstallState) (now : Nat)
    (h : opts.dry_run = true) :
    (orchestrator_install cmds ct opts st now).1.dry_run = true ∧
    (orchestrator_install cmds ct opts st now).1.would_install = some cmds ∧
    (orchestrator_install cmds ct opts st now).2.dir = st.dir ∧
    (orchestrator_install cmds ct opts st now).2.manifest = st.manifest ∧
    (orchestrator_install cmds ct opts st now).1.backup_created = false ∧
    (orchestrator_install cmds ct opts st now).1.backup_location = none ∧
    (orchestrator_install cmds ct opts st now).2.backups =
      (if opts.create_backup then st.backups ++ [st.dir] else st.backups) := by
  rw [orchestrator_install_dry cmds ct opts st now h]
  cases hcb : opts.create_backup <;> simp [hcb]

/-- Witness for the amended C2 at a concrete input. -/
theorem dry_run_reports_only_witness :
    ({ dry_run := true, create_backup := true } : InstallationOptions).dry_run = true ∧
    ((orchestrator_install ["xgit"] "active" { dry_run := true, create_backup := true }
        ⟨[("a", "b")], ManifestFile.absent, []⟩ 0).1.dry_run = true ∧
     (orchestrator_install ["xgit"] "active" { dry_run := true, create_backup := true }
        ⟨[("a", "b")], ManifestFile.absent, []⟩ 0).1.would_install = some ["xgit"] ∧
     (orchestrator_install ["xgit"] "active" { dry_run := true, create_backup := true }
        ⟨[("a", "b")], ManifestFile.absent, []⟩ 0).2.dir =
       (⟨[("a", "b")], ManifestFile.absent, []⟩ : InstallState).dir ∧
     (orchestrator_install ["xgit"] "active" { dry_run := true, create_backup := true }
        ⟨[("a", "b")], ManifestFile.absent, []⟩ 0).2.manifest =
       (⟨[("a", "b")], ManifestFile.absent, []⟩ : InstallState).manifest ∧
     (orchestrator_install ["xgit"] "active" { dry_run := true, create_backup := true }
        ⟨[("a", "b")], ManifestFile.absent, []⟩ 0).1.backup_created = false ∧
     (orchestrator_install ["xgit"] "active" { dry_run := true, create_backup := true }
        ⟨[("a", "b")], ManifestFile.absent, []⟩ 0).1.backup_location = none ∧
     (orchestrator_install ["xgit"] "active" { dry_run := true, create_backup := true }
        ⟨[("a", "b")], ManifestFile.absent, []⟩ 0).2.backups =
       (if ({ dry_run := true, create_backup := true } : InstallationOptions).create_backup
        then (⟨[("a", "b")], ManifestFile.absent, []⟩ : InstallState).backups ++
          [(⟨[("a", "b")], ManifestFile.absent, []⟩ : InstallState).dir]
        else (⟨[("a", "b")], ManifestFile.absent, []⟩ : InstallState).backups)) :=
  ⟨rfl, dry_run_reports_only ["xgit"] "active" { dry_run := true, create_backup := true }
    ⟨[("a", "b")], ManifestFile.absent, []⟩ 0 rfl⟩

/-- C3 counterexample: with `overwrite=false`, `ignore_missing=true` and an
existing target file, the claim says the name is recorded under failed and
no write occurs; the code instead records nothing, overwrites the file,
and reports the name under installed. -/
theorem conflict_ignore_missing_counterexample :
    (orchestrator_install ["xgit"] "active" { ignore_missing := true }
        ⟨[("xgit", "old")], ManifestFile.absent, []⟩ 0).1.failed_commands = [] ∧
    (orchestrator_install ["xgit"] "active" { ignore_missing := true }
        ⟨[("xgit", "old")], ManifestFile.absent, []⟩ 0).1.installed_commands = ["xgit"] ∧
    fsLookup (orchestrator_install ["xgit"] "active" { ignore_missing := true }
        ⟨[("xgit", "old")], ManifestFile.absent, []⟩ 0).2.dir "xgit" =
      some (mock_content "xgit" "active") := by decide

/-- C3 (amended): for a command whose target file exists at the start of
its iteration: with `overwrite=true` the name is recorded under
overwritten and the write proceeds; with `overwrite=false` and
`ignore_missing=false` the name is recorded under failed and the command
is skipped without writing; with `overwrite=false` and
`ignore_missing=true` the conflict is ignored — nothing is recorded for
the conflict, the write proceeds, and on success the name is recorded
under installed. -/
theorem conflict_policy (opts : InstallationOptions) (ct c : String)
    (i f o : List String) (d : FS)
    (hex : (fsLookup d c).isSome = true) (hc : c ≠ "problematic_command") :
    (opts.overwrite = true →
      process_command opts ct c i f o d =
        .next (i ++ [c]) f (o ++ [c]) (fsWrite d c (mock_content c ct))) ∧
    (opts.overwrite = false → opts.ignore_missing = false →
      process_command opts ct c i f o d = .next i (f ++ [c]) o d) ∧
    (opts.overwrite = false → opts.ignore_missing = true →
      process_command opts ct c i f o d =
        .next (i ++ [c]) f o (fsWrite d c (mock_content c ct))) := by
  refine ⟨fun how => ?_, fun how him => ?_, fun how him => ?_⟩
  · simp [process_command, install_step, copy_command_file, hex, how, hc]
  · simp [process_command, hex, how, him]
  · simp [process_command, install_step, copy_command_file, hex, how, him, hc]

/-- Witness for the amended C3 at a concrete input. -/
theorem conflict_policy_witness :
    (fsLookup [("xgit", "old")] "xgit").isSome = true ∧ "xgit" ≠ "problematic_command" ∧
    ((({ ignore_missing := true } : InstallationOptions).overwrite = true →
      process_command { ignore_missing := true } "active" "xgit" [] [] [] [("xgit", "old")] =
        .next ([] ++ ["xgit"]) [] ([] ++ ["xgit"])
          (fsWrite [("xgit", "old")] "xgit" (mock_content "xgit" "active"))) ∧
    (({ ignore_missing := true } : InstallationOptions).overwrite = false →
      ({ ignore_missing := true } : InstallationOptions).ignore_missing = false →
      process_command { ignore_missing := true } "active" "xgit" [] [] [] [("xgit", "old")] =
        .next [] ([] ++ ["xgit"]) [] [("xgit", "old")]) ∧
    (({ ignore_missing := true } : InstallationOptions).overwrite = false →
      ({ ignore_missing := true } : InstallationOptions).ignore_missing = true →
      process_command { ignore_missing := true } "active" "xgit" [] [] [] [("xgit", "old")] =
        .next ([] ++ ["xgit"]) [] []
          (fsWrite [("xgit", "old")] "xgit" (mock_content "xgit" "active")))) :=
  ⟨rfl, by decide,
   conflict_policy { ignore_missing := true } "active" "xgit" [] [] [] [("xgit", "old")]
     rfl (by decide)⟩

/-- C4 counterexample, two concrete violations of the claim that a name
appears in at most one of the three result lists: installing a command
whose file already exists with `overwrite=true` lists the name under both
overwritten and installed; and requesting the same fresh name twice with
default options lists it under both installed (first iteration) and failed
(second iteration's conflict skip). -/
theorem overwritten_also_installed_counterexample :
    ((orchestrator_install ["xgit"] "active" { overwrite := true }
        ⟨[("xgit", "old")], ManifestFile.absent, []⟩ 0).1.installed_commands = ["xgit"] ∧
    (orchestrator_install ["xgit"] "active" { overwrite := true }
        ⟨[("xgit", "old")], ManifestFile.absent, []⟩ 0).1.overwritten_commands =
      some ["xgit"]) ∧
    ((orchestrator_install ["xgit", "xgit"] "active" {}
        ⟨[], ManifestFile.absent, []⟩ 0).1.installed_commands = ["xgit"] ∧
    (orchestrator_install ["xgit", "xgit"] "active" {}
        ⟨[], ManifestFile.absent, []⟩ 0).1.failed_commands = ["xgit"]) := by decide

/-- C4 (amended): on a duplicate-free request, every name appears in at
most one of installed and failed; a name recorded under overwritten
additionally appears in installed or failed (so an overwritten and then
successfully written name is listed under both overwritten and installed).
Both restrictions are forced by the counterexample: an overwritten name
also lands in installed, and a name requested twice lands in both
installed and failed. -/
theorem result_lists_disjoint (cmds : List String) (ct : String)
    (opts : InstallationOptions) (st : InstallState) (now : Nat)
    (hnd : cmds.Nodup) :
    (∀ c, ¬(c ∈ (orchestrator_install cmds ct opts st now).1.installed_commands ∧
            c ∈ (orchestrator_install cmds ct opts st now).1.failed_commands)) ∧
    (∀ os, (orchestrator_install cmds ct opts st now).1.overwritten_commands = some os →
      ∀ c ∈ os, c ∈ (orchestrator_install cmds ct opts st now).1.installed_commands ∨
        c ∈ (orchestrator_install cmds ct opts st now).1.failed_commands) := by
  cases hdr : opts.dry_run
  · rw [orchestrator_install_not_dry cmds ct opts st now hdr]
    cases hL : install_loop opts ct cmds [] [] [] st.dir with
    | rolledBack F E D =>
        rw [core_rolledBack opts cmds ct st.dir st.manifest now F E D hL]
        cases hcb : opts.create_backup <;> simp
    | completed I F O D =>
        have hinv := install_loop_completed_disjoint opts ct cmds [] [] [] st.dir I F O D
          hnd (by simp) (by simp) (by simp) hL
        simp only [install_commands_core, hL]
        by_cases hO : O.isEmpty <;> by_cases hF : F.isEmpty <;>
          cases hcb : opts.create_backup <;>
          simp [hO, hF, hinv.1] <;>
          try exact hinv.2
  · rw [orchestrator_install_dry cmds ct opts st now hdr]
    simp

/-- Witness for the amended C4 at a concrete input. -/
theorem result_lists_disjoint_witness :
    (["xgit"] : List String).Nodup ∧
    ((∀ c, ¬(c ∈ (orchestrator_install ["xgit"] "active" { overwrite := true }
          ⟨[("xgit", "old")], ManifestFile.absent, []⟩ 0).1.installed_commands ∧
        c ∈ (orchestrator_install ["xgit"] "active" { overwrite := true }
          ⟨[("xgit", "old")], ManifestFile.absent, []⟩ 0).1.failed_commands)) ∧
    (∀ os, (orchestrator_install ["xgit"] "active" { overwrite := true }
        ⟨[("xgit", "old")], ManifestFile.absent, []⟩ 0).1.overwritten_commands = some os →
      ∀ c ∈ os, c ∈ (orchestrator_install ["xgit"] "active" { overwrite := true }
          ⟨[("xgit", "old")], ManifestFile.absent, []⟩ 0).1.installed_commands ∨
        c ∈ (orchestrator_install ["xgit"] "active" { overwrite := true }
          ⟨[("xgit", "old")], ManifestFile.absent, []⟩ 0).1.failed_commands)) :=
  ⟨by decide,
   result_lists_disjoint ["xgit"] "active" { overwrite := true }
     ⟨[("xgit", "old")], ManifestFile.absent, []⟩ 0 (by decide)⟩

/-- C5: the refactored installer performs no catalog validation during
Install: a requested name rejected by `CommandValidator.validate_selection`
is nevertheless written to the target directory and reported under
installed (with an empty failed list), contradicting the repository's own
test, which expects unknown names to fail. -/
theorem unknown_command_installed_bug :
    (validate_selection ["nonexistent_command"]).valid = false ∧
    (orchestrator_install ["nonexistent_command"] "active" {}
        ⟨[], ManifestFile.absent, []⟩ 0).1.installed_commands = ["nonexistent_command"] ∧
    (orchestrator_install ["nonexistent_command"] "active" {}
        ⟨[], ManifestFile.absent, []⟩ 0).1.failed_commands = [] ∧
    fsLookup (orchestrator_install ["nonexistent_command"] "active" {}
        ⟨[], ManifestFile.absent, []⟩ 0).2.dir "nonexistent_command" =
      some (mock_content "nonexistent_command" "active") := by decide

/-- C1: when a non-dry-run Install with rollback configured ends in
rollback (some copy failed after earlier commands were written), the
result reports rollback performed and successful, no success, and an empty
installed list; the call is insensitive to any requested commands after the
failing one; the manifest is untouched; nothing but pre-call files remains
(the final directory is the initial one minus a set of removed names, the
rest byte-identical); and every file written earlier in the call is absent
afterwards: any loop run producing this call's outcome — in particular the
tail run starting right after any file of this call was written, whose
accumulator contains that file's name — has all its accumulated installed
names absent from the final directory. -/
theorem rollback_atomicity (opts : InstallationOptions) (ct : String)
    (pre : List String) (c : String) (post : List String)
    (st : InstallState) (now : Nat)
    (hdr : opts.dry_run = false)
    (hrb : (orchestrator_install (pre ++ [c]) ct opts st now).1.rollback_performed = true) :
    orchestrator_install (pre ++ c :: post) ct opts st now
      = orchestrator_install (pre ++ [c]) ct opts st now ∧
    (orchestrator_install (pre ++ [c]) ct opts st now).1.installed_commands = [] ∧
    (orchestrator_install (pre ++ [c]) ct opts st now).1.rollback_success = true ∧
    (orchestrator_install (pre ++ [c]) ct opts st now).1.installation_success = false ∧
    (orchestrator_install (pre ++ [c]) ct opts st now).2.manifest = st.manifest ∧
    (∃ removed : List String,
      (∀ n, n ∈ removed →
        fsLookup (orchestrator_install (pre ++ [c]) ct opts st now).2.dir n = none) ∧
      (∀ n, n ∉ removed →
        fsLookup (orchestrator_install (pre ++ [c]) ct opts st now).2.dir n =
          fsLookup st.dir n)) ∧
    (∀ (todo i2 f2 o2 : List String) (d2 : FS),
      install_loop opts ct todo i2 f2 o2 d2
        = install_loop opts ct (pre ++ [c]) [] [] [] st.dir →
      ∀ n ∈ i2,
        fsLookup (orchestrator_install (pre ++ [c]) ct opts st now).2.dir n = none) := by
  rw [orchestrator_install_not_dry (pre ++ [c]) ct opts st now hdr] at hrb
  have hcore : (install_commands_core opts (pre ++ [c]) ct st.dir st.manifest now).1.rollback_performed = true := by
    cases hcb : opts.create_backup <;> simp [hcb] at hrb <;> exact hrb
  obtain ⟨F, E, D, hL⟩ :=
    core_rollback_performed opts (pre ++ [c]) ct st.dir st.manifest now hcore
  have hL2 := install_loop_append_rolledBack opts ct c post pre [] [] [] st.dir F E D hL
  have hEq1 := core_rolledBack opts (pre ++ [c]) ct st.dir st.manifest now F E D hL
  have hEq2 := core_rolledBack opts (pre ++ c :: post) ct st.dir st.manifest now F E D hL2
  obtain ⟨w, hw1, hw2⟩ :=
    install_loop_rolledBack_dir opts ct st.dir (pre ++ [c]) [] [] [] st.dir F E D
      (by simp) hL
  refine ⟨?_, ?_, ?_, ?_, ?_, ?_, ?_⟩
  · rw [orchestrator_install_not_dry (pre ++ c :: post) ct opts st now hdr,
      orchestrator_install_not_dry (pre ++ [c]) ct opts st now hdr, hEq1, hEq2]
  · rw [orchestrator_install_not_dry (pre ++ [c]) ct opts st now hdr, hEq1]
    cases hcb : opts.create_backup <;> simp
  · rw [orchestrator_install_not_dry (pre ++ [c]) ct opts st now hdr, hEq1]
    cases hcb : opts.create_backup <;> simp
  · rw [orchestrator_install_not_dry (pre ++ [c]) ct opts st now hdr, hEq1]
    cases hcb : opts.create_backup <;> simp
  · rw [orchestrator_install_not_dry (pre ++ [c]) ct opts st now hdr, hEq1]
  · refine ⟨w, ?_, ?_⟩
    · intro n hn
      rw [orchestrator_install_not_dry (pre ++ [c]) ct opts st now hdr, hEq1]
      exact hw1 n hn
    · intro n hn
      rw [orchestrator_install_not_dry (pre ++ [c]) ct opts st now hdr, hEq1]
      exact hw2 n hn
  · intro todo i2 f2 o2 d2 hEqRun n hn
    rw [orchestrator_install_not_dry (pre ++ [c]) ct opts st now hdr, hEq1]
    exact install_loop_rolledBack_installed_absent opts ct todo i2 f2 o2 d2 F E D
      (hEqRun.trans hL) n hn

/-- Witness for C1 at a concrete input (requested `[xgit, FAIL]` with a
trailing `xtest` that must not be processed). -/
theorem rollback_atomicity_witness :
    ({ rollback_on_failure := true } : InstallationOptions).dry_run = false ∧
    (orchestrator_install (["xgit"] ++ ["problematic_command"]) "active"
        { rollback_on_failure := true } ⟨[], ManifestFile.absent, []⟩ 0).1.rollback_performed
      = true ∧
    (orchestrator_install (["xgit"] ++ "problematic_command" :: ["xtest"]) "active"
        { rollback_on_failure := true } ⟨[], ManifestFile.absent, []⟩ 0
      = orchestrator_install (["xgit"] ++ ["problematic_command"]) "active"
        { rollback_on_failure := true } ⟨[], ManifestFile.absent, []⟩ 0 ∧
    (orchestrator_install (["xgit"] ++ ["problematic_command"]) "active"
        { rollback_on_failure := true } ⟨[], ManifestFile.absent, []⟩ 0).1.installed_commands
      = [] ∧
    (orchestrator_install (["xgit"] ++ ["problematic_command"]) "active"
        { rollback_on_failure := true } ⟨[], ManifestFile.absent, []⟩ 0).1.rollback_success
      = true ∧
    (orchestrator_install (["xgit"] ++ ["problematic_command"]) "active"
        { rollback_on_failure := true } ⟨[], ManifestFile.absent, []⟩ 0).1.installation_success
      = false ∧
    (orchestrator_install (["xgit"] ++ ["problematic_command"]) "active"
        { rollback_on_failure := true } ⟨[], ManifestFile.absent, []⟩ 0).2.manifest
      = (⟨[], ManifestFile.absent, []⟩ : InstallState).manifest ∧
    (∃ removed : List String,
      (∀ n, n ∈ removed →
        fsLookup (orchestrator_install (["xgit"] ++ ["problematic_command"]) "active"
          { rollback_on_failure := true } ⟨[], ManifestFile.absent, []⟩ 0).2.dir n = none) ∧
      (∀ n, n ∉ removed →
        fsLookup (orchestrator_install (["xgit"] ++ ["problematic_command"]) "active"
          { rollback_on_failure := true } ⟨[], ManifestFile.absent, []⟩ 0).2.dir n =
          fsLookup (⟨[], ManifestFile.absent, []⟩ : InstallState).dir n)) ∧
    (∀ (todo i2 f2 o2 : List String) (d2 : FS),
      install_loop { rollback_on_failure := true } "active" todo i2 f2 o2 d2
        = install_loop { rollback_on_failure := true } "active"
            (["xgit"] ++ ["problematic_command"]) [] [] []
            (⟨[], ManifestFile.absent, []⟩ : InstallState).dir →
      ∀ n ∈ i2,
        fsLookup (orchestrator_install (["xgit"] ++ ["problematic_command"]) "active"
          { rollback_on_failure := true } ⟨[], ManifestFile.absent, []⟩ 0).2.dir n = none)) :=
  ⟨rfl, by decide,
   rollback_atomicity { rollback_on_failure := true } "active" ["xgit"]
     "problematic_command" ["xtest"] ⟨[], ManifestFile.absent, []⟩ 0 rfl (by decide)⟩

/-- C6: with rollback disabled, installing `[A, B, FAIL]` (A, B fresh and
distinct, FAIL the always-failing sentinel) yields installed `[A, B]`,
failed `[FAIL]`, overall success with the partial-success marker and
`successful_commands` set, and a manifest containing A and B. -/
theorem partial_success_no_rollback (A B ct : String) (opts : InstallationOptions)
    (st : InstallState) (now : Nat)
    (hdr : opts.dry_run = false) (hrb : opts.rollback_on_failure = false)
    (hA : A ≠ "problematic_command") (hB : B ≠ "problematic_command") (hAB : A ≠ B)
    (hA0 : fsLookup st.dir A = none) (hB0 : fsLookup st.dir B = none) :
    (orchestrator_install [A, B, "problematic_command"] ct opts st now).1.installed_commands
      = [A, B] ∧
    (orchestrator_install [A, B, "problematic_command"] ct opts st now).1.failed_commands
      = ["problematic_command"] ∧
    (orchestrator_install [A, B, "problematic_command"] ct opts st now).1.installation_success
      = true ∧
    (orchestrator_install [A, B, "problematic_command"] ct opts st now).1.part_success
      = true ∧
    (orchestrator_install [A, B, "problematic_command"] ct opts st now).1.successful_commands
      = some [A, B] ∧
    A ∈ manifest_set (orchestrator_install [A, B, "problematic_command"] ct opts st now).2.manifest ∧
    B ∈ manifest_set (orchestrator_install [A, B, "problematic_command"] ct opts st now).2.manifest := by
  have h1 := process_fresh opts ct A [] [] [] st.dir hA hA0
  have hlB : fsLookup (fsWrite st.dir A (mock_content A ct)) B = none := by
    rw [fsLookup_fsWrite, if_neg hAB]
    exact hB0
  have h2 := process_fresh opts ct B [A] [] [] (fsWrite st.dir A (mock_content A ct)) hB hlB
  obtain ⟨o3, ho3, h3⟩ := process_sentinel_no_rollback opts ct [A, B] [] []
    (fsWrite (fsWrite st.dir A (mock_content A ct)) B (mock_content B ct)) hrb
  have hloop : install_loop opts ct [A, B, "problematic_command"] [] [] [] st.dir =
      .completed [A, B] ["problematic_command"] o3
        (fsWrite (fsWrite st.dir A (mock_content A ct)) B (mock_content B ct)) := by
    rw [install_loop_cons, h1]
    simp only [List.nil_append]
    rw [install_loop_cons, h2]
    simp only [List.cons_append, List.nil_append]
    rw [install_loop_cons, h3]
    rfl
  rw [orchestrator_install_not_dry _ ct opts st now hdr]
  have hmem : ∀ x ∈ ([A, B] : List String),
      x ∈ manifest_set (create_manifest st.manifest [A, B] ct now) := by
    intro x hx
    exact (create_manifest_mem st.manifest [A, B] ct now x).mpr (Or.inr hx)
  rcases ho3 with ho3 | ho3 <;> subst ho3 <;>
    cases hcb : opts.create_backup <;>
    simp [install_commands_core, hloop, hmem A (by simp), hmem B (by simp)]

/-- Witness for C6 at a concrete input. -/
theorem partial_success_no_rollback_witness :
    ({} : InstallationOptions).dry_run = false ∧
    ({} : InstallationOptions).rollback_on_failure = false ∧
    "xgit" ≠ "problematic_command" ∧ "xtest" ≠ "problematic_command" ∧
    "xgit" ≠ "xtest" ∧
    fsLookup (⟨[], ManifestFile.absent, []⟩ : InstallState).dir "xgit" = none ∧
    fsLookup (⟨[], ManifestFile.absent, []⟩ : InstallState).dir "xtest" = none ∧
    ((orchestrator_install ["xgit", "xtest", "problematic_command"] "active" {}
        ⟨[], ManifestFile.absent, []⟩ 0).1.installed_commands = ["xgit", "xtest"] ∧
    (orchestrator_install ["xgit", "xtest", "problematic_command"] "active" {}
        ⟨[], ManifestFile.absent, []⟩ 0).1.failed_commands = ["problematic_command"] ∧
    (orchestrator_install ["xgit", "xtest", "problematic_command"] "active" {}
        ⟨[], ManifestFile.absent, []⟩ 0).1.installation_success = true ∧
    (orchestrator_install ["xgit", "xtest", "problematic_command"] "active" {}
        ⟨[], ManifestFile.absent, []⟩ 0).1.part_success = true ∧
    (orchestrator_install ["xgit", "xtest", "problematic_command"] "active" {}
        ⟨[], ManifestFile.absent, []⟩ 0).1.successful_commands = some ["xgit", "xtest"] ∧
    "xgit" ∈ manifest_set (orchestrator_install ["xgit", "xtest", "problematic_command"]
        "active" {} ⟨[], ManifestFile.absent, []⟩ 0).2.manifest ∧
    "xtest" ∈ manifest_set (orchestrator_install ["xgit", "xtest", "problematic_command"]
        "active" {} ⟨[], ManifestFile.absent, []⟩ 0).2.manifest) :=
  ⟨rfl, rfl, by decide, by decide, by decide, rfl, rfl,
   partial_success_no_rollback "xgit" "xtest" "active" {} ⟨[], ManifestFile.absent, []⟩ 0
     rfl rfl (by decide) (by decide) (by decide) rfl rfl⟩

/-- C7: starting from a corrupt manifest file, a successful install of a
fresh command surfaces no error, reports the command installed, and leaves
a valid manifest whose name set is exactly that command. -/
theorem corrupt_manifest_recovered (A ct raw : String) (opts : InstallationOptions)
    (st : InstallState) (now : Nat)
    (hdr : opts.dry_run = false) (hA : A ≠ "problematic_command")
    (hA0 : fsLookup st.dir A = none) (hmf : st.manifest = .corrupt raw) :
    (orchestrator_install [A] ct opts st now).1.error = none ∧
    (orchestrator_install [A] ct opts st now).1.installed_commands = [A] ∧
    (orchestrator_install [A] ct opts st now).1.installation_success = true ∧
    (orchestrator_install [A] ct opts st now).2.manifest =
      .valid ⟨[A], now, "claude-dev-toolkit", ct, "1.0.0", none⟩ := by
  have h1 := process_fresh opts ct A [] [] [] st.dir hA hA0
  have hloop : install_loop opts ct [A] [] [] [] st.dir =
      .completed [A] [] [] (fsWrite st.dir A (mock_content A ct)) := by
    rw [install_loop_cons, h1]
    simp only [List.nil_append]
    rw [install_loop_nil]
  rw [orchestrator_install_not_dry _ ct opts st now hdr]
  cases hcb : opts.create_backup <;>
    simp [install_commands_core, hloop, hmf, create_manifest]

/-- Witness for C7 at a concrete input. -/
theorem corrupt_manifest_recovered_witness :
    ({} : InstallationOptions).dry_run = false ∧
    "xgit" ≠ "problematic_command" ∧
    fsLookup (⟨[], ManifestFile.corrupt "not json", []⟩ : InstallState).dir "xgit" = none ∧
    (⟨[], ManifestFile.corrupt "not json", []⟩ : InstallState).manifest =
      .corrupt "not json" ∧
    ((orchestrator_install ["xgit"] "active" {}
        ⟨[], ManifestFile.corrupt "not json", []⟩ 7).1.error = none ∧
    (orchestrator_install ["xgit"] "active" {}
        ⟨[], ManifestFile.corrupt "not json", []⟩ 7).1.installed_commands = ["xgit"] ∧
    (orchestrator_install ["xgit"] "active" {}
        ⟨[], ManifestFile.corrupt "not json", []⟩ 7).1.installation_success = true ∧
    (orchestrator_install ["xgit"] "active" {}
        ⟨[], ManifestFile.corrupt "not json", []⟩ 7).2.manifest =
      .valid ⟨["xgit"], 7, "claude-dev-toolkit", "active", "1.0.0", none⟩) :=
  ⟨rfl, by decide, rfl, rfl,
   corrupt_manifest_recovered "xgit" "active" "not json" {}
     ⟨[], ManifestFile.corrupt "not json", []⟩ 7 rfl (by decide) rfl rfl⟩

/-- C9: from an empty target directory and no manifest, installing `[A, B]`
and then uninstalling `[A]` leaves exactly B's file in the directory and
the manifest's set equal to `{B}`; uninstalling a batch containing an
absent name simply omits it and still removes the present ones. -/
theorem uninstall_inverse (A B C ct : String) (opts : InstallationOptions)
    (bks : List FS) (now1 now2 now3 : Nat)
    (hdr : opts.dry_run = false)
    (hA : A ≠ "problematic_command") (hB : B ≠ "problematic_command")
    (hAB : A ≠ B) (hCA : C ≠ A) (hCB : C ≠ B) :
    (orchestrator_install [A, B] ct opts ⟨[], ManifestFile.absent, bks⟩ now1).1.installed_commands
      = [A, B] ∧
    (uninstall_commands [A]
        (orchestrator_install [A, B] ct opts ⟨[], ManifestFile.absent, bks⟩ now1).2
        now2).1.uninstalled_commands = [A] ∧
    (uninstall_commands [A]
        (orchestrator_install [A, B] ct opts ⟨[], ManifestFile.absent, bks⟩ now1).2
        now2).2.dir = [(B, mock_content B ct)] ∧
    manifest_set (uninstall_commands [A]
        (orchestrator_install [A, B] ct opts ⟨[], ManifestFile.absent, bks⟩ now1).2
        now2).2.manifest = [B] ∧
    (uninstall_commands [C, A]
        (orchestrator_install [A, B] ct opts ⟨[], ManifestFile.absent, bks⟩ now1).2
        now3).1.uninstalled_commands = [A] := by
  have h1 := process_fresh opts ct A [] [] [] [] hA rfl
  have hlB : fsLookup (fsWrite [] A (mock_content A ct)) B = none := by
    rw [fsLookup_fsWrite, if_neg hAB]
    rfl
  have h2 := process_fresh opts ct B [A] [] [] (fsWrite [] A (mock_content A ct)) hB hlB
  have hloop : install_loop opts ct [A, B] [] [] [] [] =
      .completed [A, B] [] []
        (fsWrite (fsWrite [] A (mock_content A ct)) B (mock_content B ct)) := by
    rw [install_loop_cons, h1]
    simp only [List.nil_append]
    rw [install_loop_cons, h2]
    rfl
  have hd2 : fsWrite (fsWrite [] A (mock_content A ct)) B (mock_content B ct) =
      [(A, mock_content A ct), (B, mock_content B ct)] := by
    simp [fsWrite, hAB]
  have hBA : ¬ B = A := fun h => hAB h.symm
  have hAC : ¬ A = C := fun h => hCA h.symm
  have hBC : ¬ B = C := fun h => hCB h.symm
  rw [orchestrator_install_not_dry [A, B] ct opts ⟨[], ManifestFile.absent, bks⟩ now1 hdr]
  cases hcb : opts.create_backup <;>
    simp [install_commands_core, hloop, hd2, create_manifest, uninstall_commands,
      uninstall_loop, remove_command_file, fsLookup, fsRemove, update_manifest_remove,
      manifest_set, hAB, hBA, hAC, hBC, hCA, hCB]

/-- Witness for C9 at a concrete input. -/
theorem uninstall_inverse_witness :
    ({} : InstallationOptions).dry_run = false ∧
    "xgit" ≠ "problematic_command" ∧ "xtest" ≠ "problematic_command" ∧
    "xgit" ≠ "xtest" ∧ "xdocs" ≠ "xgit" ∧ "xdocs" ≠ "xtest" ∧
    ((orchestrator_install ["xgit", "xtest"] "active" {}
        ⟨[], ManifestFile.absent, []⟩ 1).1.installed_commands = ["xgit", "xtest"] ∧
    (uninstall_commands ["xgit"]
        (orchestrator_install ["xgit", "xtest"] "active" {}
          ⟨[], ManifestFile.absent, []⟩ 1).2 2).1.uninstalled_commands = ["xgit"] ∧
    (uninstall_commands ["xgit"]
        (orchestrator_install ["xgit", "xtest"] "active" {}
          ⟨[], ManifestFile.absent, []⟩ 1).2 2).2.dir =
      [("xtest", mock_content "xtest" "active")] ∧
    manifest_set (uninstall_commands ["xgit"]
        (orchestrator_install ["xgit", "xtest"] "active" {}
          ⟨[], ManifestFile.absent, []⟩ 1).2 2).2.manifest = ["xtest"] ∧
    (uninstall_commands ["xdocs", "xgit"]
        (orchestrator_install ["xgit", "xtest"] "active" {}
          ⟨[], ManifestFile.absent, []⟩ 1).2 3).1.uninstalled_commands = ["xgit"]) :=
  ⟨rfl, by decide, by decide, by decide, by decide, by decide,
   uninstall_inverse "xgit" "xtest" "xdocs" "active" {} [] 1 2 3 rfl
     (by decide) (by decide) (by decide) (by decide) (by decide)⟩

/-- Processing the failure sentinel with rollback enabled and
`overwrite=true`: the iteration always reaches the copy, fails, and rolls
back everything installed so far in this call. -/
theorem process_sentinel_rollback (opts : InstallationOptions) (ct : String)
    (i f o : List String) (d : FS)
    (hrb : opts.rollback_on_failure = true) (how : opts.overwrite = true) :
    process_command opts ct "problematic_command" i f o d =
      .rolledBack (f ++ ["problematic_command"])
        ("Failed to copy " ++ "problematic_command") (removeAll d i) := by
  by_cases h1 : (fsLookup d "problematic_command").isSome <;>
    simp [process_command, install_step, copy_command_file, h1, how, hrb]

/-- C10: rollback deletes overwritten files instead of restoring them: if
A's file existed before the call and was rewritten under `overwrite=true`,
and a later copy failure triggers rollback, afterwards A's file is absent
— the directory is not returned to its pre-call state. -/
theorem rollback_deletes_overwritten (A ct old : String) (opts : InstallationOptions)
    (st : InstallState) (now : Nat)
    (hA : A ≠ "problematic_command") (hex : fsLookup st.dir A = some old)
    (how : opts.overwrite = true) (hrb : opts.rollback_on_failure = true)
    (hdr : opts.dry_run = false) :
    (orchestrator_install [A, "problematic_command"] ct opts st now).1.rollback_performed
      = true ∧
    (orchestrator_install [A, "problematic_command"] ct opts st now).1.installed_commands
      = [] ∧
    fsLookup (orchestrator_install [A, "problematic_command"] ct opts st now).2.dir A
      = none ∧
    fsLookup (orchestrator_install [A, "problematic_command"] ct opts st now).2.dir A
      ≠ fsLookup st.dir A := by
  have h1 := process_overwrite opts ct A [] [] [] st.dir hA how
  rw [hex] at h1
  simp only [Option.isSome_some, if_true, List.nil_append] at h1
  have h2 := process_sentinel_rollback opts ct [A] [] [A]
    (fsWrite st.dir A (mock_content A ct)) hrb how
  have hloop : install_loop opts ct [A, "problematic_command"] [] [] [] st.dir =
      .rolledBack ["problematic_command"] ("Failed to copy " ++ "problematic_command")
        (removeAll (fsWrite st.dir A (mock_content A ct)) [A]) := by
    rw [install_loop_cons, h1]
    show install_loop opts ct ["problematic_command"] [A] [] [A]
      (fsWrite st.dir A (mock_content A ct)) = _
    rw [install_loop_cons, h2]
    rfl
  have hlook : fsLookup (removeAll (fsWrite st.dir A (mock_content A ct)) [A]) A = none := by
    rw [fsLookup_removeAll, if_pos (by simp)]
  rw [orchestrator_install_not_dry [A, "problematic_command"] ct opts st now hdr,
    core_rolledBack opts [A, "problematic_command"] ct st.dir st.manifest now
      ["problematic_command"] ("Failed to copy " ++ "problematic_command")
      (removeAll (fsWrite st.dir A (mock_content A ct)) [A]) hloop]
  cases hcb : opts.create_backup <;> simp [hlook, hex]

/-- Witness for C10 at a concrete input. -/
theorem rollback_deletes_overwritten_witness :
    "xgit" ≠ "problematic_command" ∧
    fsLookup (⟨[("xgit", "old")], ManifestFile.absent, []⟩ : InstallState).dir "xgit"
      = some "old" ∧
    ({ overwrite := true, rollback_on_failure := true } : InstallationOptions).overwrite
      = true ∧
    ({ overwrite := true, rollback_on_failure := true } : InstallationOptions).rollback_on_failure
      = true ∧
    ({ overwrite := true, rollback_on_failure := true } : InstallationOptions).dry_run
      = false ∧
    ((orchestrator_install ["xgit", "problematic_command"] "active"
        { overwrite := true, rollback_on_failure := true }
        ⟨[("xgit", "old")], ManifestFile.absent, []⟩ 0).1.rollback_performed = true ∧
    (orchestrator_install ["xgit", "problematic_command"] "active"
        { overwrite := true, rollback_on_failure := true }
        ⟨[("xgit", "old")], ManifestFile.absent, []⟩ 0).1.installed_commands = [] ∧
    fsLookup (orchestrator_install ["xgit", "problematic_command"] "active"
        { overwrite := true, rollback_on_failure := true }
        ⟨[("xgit", "old")], ManifestFile.absent, []⟩ 0).2.dir "xgit" = none ∧
    fsLookup (orchestrator_install ["xgit", "problematic_command"] "active"
        { overwrite := true, rollback_on_failure := true }
        ⟨[("xgit", "old")], ManifestFile.absent, []⟩ 0).2.dir "xgit" ≠
      fsLookup (⟨[("xgit", "old")], ManifestFile.absent, []⟩ : InstallState).dir "xgit") :=
  ⟨by decide, rfl, rfl, rfl, rfl,
   rollback_deletes_overwritten "xgit" "active" "old"
     { overwrite := true, rollback_on_failure := true }
     ⟨[("xgit", "old")], ManifestFile.absent, []⟩ 0 (by decide) rfl rfl rfl rfl⟩

end CommandInstall
